import Mathlib

/-!
Verification development for the iOS bridge of a Pusher-style realtime client
(src/channels/pusher.ios.ts). The bridge wires user callbacks to an external
transport. We shallowly embed the three binding scopes (client-global,
per-channel, per-connection), the delegate adapter, and the constructor
host-selection logic, and prove the behavioral claims about them.

Callback references are modelled as natural-number identifiers compared by
equality, mirroring reference identity of JS function values used as Map keys.
Transport subscription handles are modelled as natural numbers issued by a
counter; the real handles are opaque non-empty strings, hence always truthy.
A JS Map is modelled as an association list with Map set/get/delete semantics.
Observable callback invocations are collected into an explicit log.
-/

/-- Raw wire payload delivered by the transport. The source reads one string
key from it, data.objectForKey applied to the key event, which we expose as
the field event; the rest of the payload is opaque and modelled as body. -/
structure RawPayload where
  event : String
  body : String
deriving DecidableEq, Repr

/-- Deserialized event value handed to user callbacks. -/
structure PusherEvent where
  event : String
  body : String
deriving DecidableEq, Repr

/-- Modelled from the spec: the helper module (not under src) exposes a single
external function deserialize from raw payloads to events; we model it as the
evident repackaging of the raw structure. -/
def deserialize (r : RawPayload) : PusherEvent :=
  ⟨r.event, r.body⟩

namespace InternalPusherEvents

/-- Modelled from the spec: pusher.common (not under src) defines the internal
event discriminator for protocol errors; the spec names the discriminator set
as internal-error, internal-ping, internal-pong. -/
def Error : String := "internal-error"

/-- Modelled from the spec: internal ping discriminator (see Error). -/
def Ping : String := "internal-ping"

/-- Modelled from the spec: internal pong discriminator (see Error). -/
def Pong : String := "internal-pong"

end InternalPusherEvents

/-- Argument passed to a user callback: either a fixed literal string (the
ping and pong cases) or a deserialized event. -/
inductive CbArg where
  | lit (s : String)
  | ev (e : PusherEvent)
deriving DecidableEq, Repr

/-- One observable callback invocation: which callback fired and with what. -/
structure Invocation where
  cb : Nat
  arg : CbArg
deriving DecidableEq, Repr

/-- JS Map get: value of the first entry with the given key. -/
def mapGet (m : List (Nat × Nat)) (k : Nat) : Option Nat :=
  (m.find? (fun p => p.1 = k)).map (fun p => p.2)

/-- JS Map set: update the entry in place when the key is present, otherwise
append a new entry (insertion order preserved, as JS Maps do). -/
def mapSet (m : List (Nat × Nat)) (k v : Nat) : List (Nat × Nat) :=
  match m with
  | [] => [(k, v)]
  | p :: t => if p.1 = k then (k, v) :: t else p :: mapSet t k v

/-- JS Map delete: remove the entry with the given key. -/
def mapDelete (m : List (Nat × Nat)) (k : Nat) : List (Nat × Nat) :=
  m.filter (fun p => p.1 ≠ k)

/-- A registry is well formed when no key occurs twice: at most one handle is
recorded per callback reference. -/
def keysNodup (m : List (Nat × Nat)) : Prop :=
  (m.map (fun p => p.1)).Nodup

namespace TNSPusher

/-- State of the client-global scope, TNSPusher: the transport handle counter,
the set of live transport subscriptions (handle paired with the callback the
translation closure invokes), and the _globalEvents registry. -/
structure State where
  counter : Nat
  subs : List (Nat × Nat)
  globalEvents : List (Nat × Nat)
deriving DecidableEq, Repr

/-- Fresh client state: the constructor creates an empty Map. -/
def init : State :=
  ⟨0, [], []⟩

/-- TNSPusher.bind: calls the transport bind with a closure that applies the
callback to the deserialized payload, then records callback to handle in the
_globalEvents Map. The transport issues a fresh handle. -/
def bind (s : State) (cb : Nat) : State :=
  ⟨s.counter + 1, s.subs ++ [(s.counter, cb)], mapSet s.globalEvents cb s.counter⟩

/-- TNSPusher.unbind: looks the callback up in _globalEvents; when present,
calls the transport unbindWithCallbackId with the stored handle and deletes
the entry; when absent, does nothing. -/
def unbind (s : State) (cb : Nat) : State :=
  match mapGet s.globalEvents cb with
  | some id =>
      ⟨s.counter, s.subs.filter (fun p => p.1 ≠ id), mapDelete s.globalEvents cb⟩
  | none => s

/-- Transport delivery in the client-global scope: every live subscription
runs its translation closure, invoking its callback with the deserialized
payload. Delivery mutates no bridge state. -/
def deliver (s : State) (d : RawPayload) : List Invocation :=
  s.subs.map (fun p => ⟨p.2, CbArg.ev (deserialize d)⟩)

end TNSPusher

namespace TNSPusherChannel

/-- State of the per-channel scope, TNSPusherChannel: transport counter, live
per-channel subscriptions (handle and bound event name; the closure installed
by bind is the stub described below), and the _channelEvents registry. -/
structure State where
  counter : Nat
  subs : List (Nat × String)
  channelEvents : List (Nat × Nat)
deriving DecidableEq, Repr

/-- Fresh channel state. -/
def init : State :=
  ⟨0, [], []⟩

/-- TNSPusherChannel.bind: invokes the transport bindWithEventName primitive
through an NSInvocation, passing a closure whose body only logs the string
called to the console; the line applying the callback to the deserialized
payload is commented out in the source. The returned handle is recorded as
callback to handle in _channelEvents. -/
def bind (s : State) (event : String) (cb : Nat) : State :=
  ⟨s.counter + 1, s.subs ++ [(s.counter, event)], mapSet s.channelEvents cb s.counter⟩

/-- TNSPusherChannel.unbind: looks the callback up in _channelEvents; when
present, invokes the transport unbindWithEventName primitive with the stored
handle and deletes the entry; when absent, the prepared invocation is never
invoked and nothing changes. -/
def unbind (s : State) (_event : String) (cb : Nat) : State :=
  match mapGet s.channelEvents cb with
  | some id =>
      ⟨s.counter, s.subs.filter (fun p => p.1 ≠ id), mapDelete s.channelEvents cb⟩
  | none => s

/-- Transport delivery of a payload for a channel event: each subscription
bound to that event name runs the stub closure, which appends the string
called to the console log and invokes no callback (the invocation is
commented out in the source). Returns the console log and the (empty)
callback invocation log. -/
def deliver (s : State) (event : String) (_d : RawPayload) :
    List String × List Invocation :=
  ((s.subs.filter (fun p => p.2 = event)).map (fun _ => "called"), [])

end TNSPusherChannel

namespace TNSPusherConnection

/-- State of the per-connection scope, TNSPusherConnection: transport counter,
live transport subscriptions (handle, logical event name the demultiplexing
closure filters for, callback), and the events registry. Note that bind
registers the handle in the events Map only inside the delivery closure. -/
structure State where
  counter : Nat
  subs : List (Nat × String × Nat)
  events : List (Nat × Nat)
deriving DecidableEq, Repr

/-- Fresh connection state. -/
def init : State :=
  ⟨0, [], []⟩

/-- TNSPusherConnection.bind: installs one transport subscription with its own
demultiplexing closure for the requested logical event. The events registry
is NOT written here: the source sets it inside the closure, upon a matching
delivery. -/
def bind (s : State) (event : String) (cb : Nat) : State :=
  ⟨s.counter + 1, s.subs ++ [(s.counter, event, cb)], s.events⟩

/-- TNSPusherConnection.unbind: looks the callback up in the events registry;
when present, calls the transport unbindWithCallbackId with the stored handle
and deletes the entry; when absent, does nothing. -/
def unbind (s : State) (_event : String) (cb : Nat) : State :=
  match mapGet s.events cb with
  | some id =>
      ⟨s.counter, s.subs.filter (fun p => p.1 ≠ id), mapDelete s.events cb⟩
  | none => s

/-- Body of the demultiplexing closure installed by bind, run on one delivered
payload for the subscription (h, event, cb): three sequential conditionals on
the embedded discriminator. A match invokes the callback (with the full
deserialized payload for error, with a fixed literal for ping and pong) and
records callback to handle in the events registry. -/
def handleOne (d : RawPayload) (h : Nat) (event : String) (cb : Nat)
    (events : List (Nat × Nat)) : List (Nat × Nat) × List Invocation :=
  let ne := d.event
  let acc1 : List (Nat × Nat) × List Invocation :=
    if event = "error" ∧ ne = InternalPusherEvents.Error then
      (mapSet events cb h, [⟨cb, CbArg.ev (deserialize d)⟩])
    else (events, [])
  let acc2 : List (Nat × Nat) × List Invocation :=
    if event = "ping" ∧ ne = InternalPusherEvents.Ping then
      (mapSet acc1.1 cb h, acc1.2 ++ [⟨cb, CbArg.lit "ping"⟩])
    else acc1
  if event = "pong" ∧ ne = InternalPusherEvents.Pong then
    (mapSet acc2.1 cb h, acc2.2 ++ [⟨cb, CbArg.lit "pong"⟩])
  else acc2

/-- Run every live demultiplexing closure, in subscription order, threading
the events registry and concatenating the invocation logs. -/
def deliverAux (d : RawPayload) (subs : List (Nat × String × Nat))
    (events : List (Nat × Nat)) : List (Nat × Nat) × List Invocation :=
  match subs with
  | [] => (events, [])
  | sub :: rest =>
      let acc := handleOne d sub.1 sub.2.1 sub.2.2 events
      let tail := deliverAux d rest acc.1
      (tail.1, acc.2 ++ tail.2)

/-- Transport delivery in the connection scope. Each closure first checks that
the payload is present; a missing payload is ignored by every closure. -/
def deliver (s : State) (data : Option RawPayload) : State × List Invocation :=
  match data with
  | none => (s, [])
  | some d =>
      let acc := deliverAux d s.subs s.events
      (⟨s.counter, s.subs, acc.1⟩, acc.2)

end TNSPusherConnection

/-- Modelled from the spec: the ConnectionStatus enumeration lives in the
enums module, not under src; the spec lists exactly these five values. -/
inductive ConnectionStatus where
  | CONNECTING
  | CONNECTED
  | DISCONNECTING
  | DISCONNECTED
  | RECONNECTING
deriving DecidableEq, Repr

/-- Modelled from the spec: the transport-native connection state enumeration
(the delegate switches on Connected, Connecting, Disconnecting, Reconnecting
and has a default arm; Disconnected is the remaining native value and falls
to the default). -/
inductive ConnectionState where
  | connecting
  | connected
  | disconnecting
  | disconnected
  | reconnecting
deriving DecidableEq, Repr

/-- The mutable slice of the Connection facade the delegate writes: the _state
field, undefined until the first notification. -/
structure ConnFacade where
  _state : Option ConnectionStatus
deriving DecidableEq, Repr

/-- The slice of TNSPusher the delegate adapter touches: the lazily created,
memoized _connection facade (none until the connection getter first runs). -/
structure ClientFacade where
  _connection : Option ConnFacade
deriving DecidableEq, Repr

/-- The connection getter on TNSPusher: creates the facade on first access and
memoizes it; returns the (possibly updated) owner and the facade. -/
def connectionOf (p : ClientFacade) : ClientFacade × ConnFacade :=
  match p._connection with
  | some c => (p, c)
  | none => (⟨some ⟨none⟩⟩, ⟨none⟩)

namespace PusherDelegateImpl

/-- PusherDelegateImpl._getState: the fixed translation table from the native
state to ConnectionStatus; every value outside the four named cases takes the
default arm. -/
def _getState (state : ConnectionState) : ConnectionStatus :=
  match state with
  | ConnectionState.connected => ConnectionStatus.CONNECTED
  | ConnectionState.connecting => ConnectionStatus.CONNECTING
  | ConnectionState.disconnecting => ConnectionStatus.DISCONNECTING
  | ConnectionState.reconnecting => ConnectionStatus.RECONNECTING
  | _ => ConnectionStatus.DISCONNECTED

/-- PusherDelegateImpl.changedConnectionStateFromTo: resolve the weak owner
reference; when the owner is gone, drop the notification; otherwise write the
translated new state into the state field of the owner connection facade
(creating the facade through the getter when needed). -/
def changedConnectionStateFromTo (owner : Option ClientFacade)
    (_old new_ : ConnectionState) : Option ClientFacade :=
  match owner with
  | none => none
  | some o =>
      let oc := connectionOf o
      some { oc.1 with _connection := some { oc.2 with _state := some (_getState new_) } }

/-- The four lifecycle notifications the delegate adapter receives from the
transport. -/
inductive Notification where
  | changedConnectionState (old new_ : ConnectionState)
  | debugLogWithMessage (message : String)
  | failedToSubscribe (name : String)
  | subscribedToChannel (name : String)
deriving DecidableEq, Repr

/-- Dispatch of one delegate notification. debugLogWithMessage has an empty
body; the two subscription hooks only resolve the weak owner reference and
change nothing (their remaining logic is commented out in the source). -/
def dispatch (owner : Option ClientFacade) (n : Notification) :
    Option ClientFacade :=
  match n with
  | Notification.changedConnectionState old new_ =>
      changedConnectionStateFromTo owner old new_
  | Notification.debugLogWithMessage _ => owner
  | Notification.failedToSubscribe _ => owner
  | Notification.subscribedToChannel _ => owner

end PusherDelegateImpl

/-- One endpoint selection value, OCPusherHost: built either from a cluster
name or from an explicit host. -/
inductive OCPusherHost where
  | fromCluster (c : String)
  | fromHost (h : String)
deriving DecidableEq, Repr

/-- Constructor options object (interfaces module is not under src; the
fields are exactly those the constructor reads). A missing field is none. -/
structure Options where
  cluster : Option String
  host : Option String
  port : Option Nat
  encrypted : Option Bool
  autoReconnect : Option Bool
  activityTimeout : Option Nat
deriving DecidableEq, Repr

/-- JS truthiness of an optional string field: present and non-empty. -/
def truthyStr (o : Option String) : Bool :=
  match o with
  | some s => s ≠ ""
  | none => false

/-- JS truthiness of an optional boolean under the double-negation coercion
used by the constructor. -/
def truthyBool (o : Option Bool) : Bool :=
  match o with
  | some b => b
  | none => false

/-- Host selection in the TNSPusher constructor: the host variable starts
null, is assigned from cluster when options.cluster is truthy, and is then
overwritten from host when options.host is truthy. -/
def computeHost (o : Options) : Option OCPusherHost :=
  let host : Option OCPusherHost := none
  let host := if truthyStr o.cluster then
      some (OCPusherHost.fromCluster (o.cluster.getD ""))
    else host
  let host := if truthyStr o.host then
      some (OCPusherHost.fromHost (o.host.getD ""))
    else host
  host

/-- The transport options record the constructor builds when an options
object is supplied (PusherClientOptions): attemptToReturnJSONObject is the
literal false, booleans go through double negation, host is the computed
selection, port and activityTimeout pass through. -/
structure PusherClientOptions where
  attemptToReturnJSONObject : Bool
  autoReconnect : Bool
  ocHost : Option OCPusherHost
  port : Option Nat
  encrypted : Bool
  activityTimeout : Option Nat
deriving DecidableEq, Repr

/-- The constructor path that builds the transport options from the supplied
options object. -/
def buildClientOptions (o : Options) : PusherClientOptions :=
  ⟨false, truthyBool o.autoReconnect, computeHost o, o.port,
    truthyBool o.encrypted, o.activityTimeout⟩

/-- Operations on the client-global scope, for reasoning about traces. -/
inductive ClientOp where
  | bind (cb : Nat)
  | unbind (cb : Nat)
  | deliver (d : RawPayload)
deriving DecidableEq, Repr

/-- Step of one client-global operation; delivery mutates no client state. -/
def clientStep (s : TNSPusher.State) (op : ClientOp) : TNSPusher.State :=
  match op with
  | ClientOp.bind cb => TNSPusher.bind s cb
  | ClientOp.unbind cb => TNSPusher.unbind s cb
  | ClientOp.deliver _ => s

/-- Run a trace of client-global operations. -/
def clientRun (s : TNSPusher.State) (ops : List ClientOp) : TNSPusher.State :=
  ops.foldl clientStep s

/-- Operations on the per-channel scope. -/
inductive ChannelOp where
  | bind (event : String) (cb : Nat)
  | unbind (event : String) (cb : Nat)
  | deliver (event : String) (d : RawPayload)
deriving DecidableEq, Repr

/-- Step of one per-channel operation; delivery mutates no channel state. -/
def channelStep (s : TNSPusherChannel.State) (op : ChannelOp) :
    TNSPusherChannel.State :=
  match op with
  | ChannelOp.bind e cb => TNSPusherChannel.bind s e cb
  | ChannelOp.unbind e cb => TNSPusherChannel.unbind s e cb
  | ChannelOp.deliver _ _ => s

/-- Run a trace of per-channel operations. -/
def channelRun (s : TNSPusherChannel.State) (ops : List ChannelOp) :
    TNSPusherChannel.State :=
  ops.foldl channelStep s

/-- Operations on the per-connection scope; delivery here does mutate state
(the closures write the events registry). -/
inductive ConnOp where
  | bind (event : String) (cb : Nat)
  | unbind (event : String) (cb : Nat)
  | deliver (d : Option RawPayload)
deriving DecidableEq, Repr

/-- Step of one per-connection operation. -/
def connStep (s : TNSPusherConnection.State) (op : ConnOp) :
    TNSPusherConnection.State :=
  match op with
  | ConnOp.bind e cb => TNSPusherConnection.bind s e cb
  | ConnOp.unbind e cb => TNSPusherConnection.unbind s e cb
  | ConnOp.deliver d => (TNSPusherConnection.deliver s d).1

/-- Run a trace of per-connection operations. -/
def connRun (s : TNSPusherConnection.State) (ops : List ConnOp) :
    TNSPusherConnection.State :=
  ops.foldl connStep s

/-- Perform a sequence of connection-scope bind calls, one per requested
(logical event, callback) pair. -/
def connBindAll (s : TNSPusherConnection.State) (bs : List (String × Nat)) :
    TNSPusherConnection.State :=
  bs.foldl (fun t p => TNSPusherConnection.bind t p.1 p.2) s

/-- The subscriptions a sequence of connection-scope bind calls appends when
the transport counter starts at c: consecutive handles, one subscription per
requested pair. -/
def pendingSubs (c : Nat) : List (String × Nat) → List (Nat × String × Nat)
  | [] => []
  | p :: t => (c, p.1, p.2) :: pendingSubs (c + 1) t

/-- Invariant used for the dangling-subscription claim: the subscription with
handle h0 for callback cb is live, no registry entry stores h0, and h0 is in
the past of the transport counter (so no future bind reissues it). -/
def firstSubPinned (h0 cb : Nat) (s : TNSPusher.State) : Prop :=
  (h0, cb) ∈ s.subs ∧ (∀ p ∈ s.globalEvents, p.2 ≠ h0) ∧ h0 < s.counter

theorem mapGet_cons (p : Nat × Nat) (t : List (Nat × Nat)) (k : Nat) :
    mapGet (p :: t) k = if p.1 = k then some p.2 else mapGet t k := by
  by_cases hp : p.1 = k <;> simp [mapGet, List.find?_cons, hp]

theorem mapGet_mapSet_self (m : List (Nat × Nat)) (k v : Nat) :
    mapGet (mapSet m k v) k = some v := by
  induction m with
  | nil => simp [mapSet, mapGet_cons]
  | cons p t ih =>
      by_cases hp : p.1 = k
      · simp [mapSet, hp, mapGet_cons]
      · simp [mapSet, hp, mapGet_cons, ih]

theorem mapGet_mapDelete_self (m : List (Nat × Nat)) (k : Nat) :
    mapGet (mapDelete m k) k = none := by
  induction m with
  | nil => rfl
  | cons p t ih =>
      by_cases hp : p.1 = k
      · simpa [mapDelete, List.filter_cons, hp] using ih
      · simpa [mapDelete, List.filter_cons, hp, mapGet_cons] using ih

theorem mapSet_cons (p : Nat × Nat) (t : List (Nat × Nat)) (k v : Nat) :
    mapSet (p :: t) k v =
      if p.1 = k then (k, v) :: t else p :: mapSet t k v := rfl

theorem mapGet_mem {m : List (Nat × Nat)} {k v : Nat}
    (h : mapGet m k = some v) : (k, v) ∈ m := by
  induction m with
  | nil => simp [mapGet] at h
  | cons p t ih =>
      rw [mapGet_cons] at h
      by_cases hp : p.1 = k
      · rw [if_pos hp] at h
        have hv : p.2 = v := by
          injection h
        have hpkv : p = (k, v) := by
          cases p
          simp only [Prod.mk.injEq]
          exact ⟨hp, hv⟩
        rw [← hpkv]
        exact List.mem_cons_self _ _
      · rw [if_neg hp] at h
        exact List.mem_cons_of_mem _ (ih h)

theorem mem_mapSet {m : List (Nat × Nat)} {k v : Nat} {p : Nat × Nat}
    (h : p ∈ mapSet m k v) : p ∈ m ∨ p = (k, v) := by
  induction m with
  | nil =>
      simp [mapSet] at h
      right
      simp [h]
  | cons q t ih =>
      by_cases hq : q.1 = k
      · simp [mapSet, hq] at h
        rcases h with h | h
        · right; simp [h]
        · left; exact List.mem_cons_of_mem _ h
      · simp [mapSet, hq] at h
        rcases h with h | h
        · left; simp [h]
        · rcases ih h with h2 | h2
          · left; exact List.mem_cons_of_mem _ h2
          · right; exact h2

theorem mem_mapDelete {m : List (Nat × Nat)} {k : Nat} {p : Nat × Nat}
    (h : p ∈ mapDelete m k) : p ∈ m := by
  exact List.mem_of_mem_filter h

theorem mapSet_mapSet_length (m : List (Nat × Nat)) (k v1 v2 : Nat) :
    (mapSet (mapSet m k v1) k v2).length = (mapSet m k v1).length := by
  induction m with
  | nil => simp [mapSet]
  | cons q t ih =>
      by_cases hq : q.1 = k
      · simp [mapSet, hq]
      · simp [mapSet, hq, ih]

theorem mem_keys_mapSet {m : List (Nat × Nat)} {k v x : Nat}
    (h : x ∈ (mapSet m k v).map (fun p => p.1)) :
    x ∈ m.map (fun p => p.1) ∨ x = k := by
  induction m with
  | nil =>
      simp [mapSet] at h
      right; exact h
  | cons q t ih =>
      by_cases hq : q.1 = k
      · simp [mapSet, hq] at h
        rcases h with h | h
        · right; exact h
        · left; simp [h]
      · simp [mapSet, hq] at h
        rcases h with h | h
        · left; simp [h]
        · rcases ih (by simpa using h) with h2 | h2
          · left
            simp only [List.map_cons, List.mem_cons]
            right
            exact h2
          · right; exact h2

theorem keysNodup_mapSet {m : List (Nat × Nat)} (k v : Nat)
    (h : keysNodup m) : keysNodup (mapSet m k v) := by
  induction m with
  | nil => simp [mapSet, keysNodup]
  | cons q t ih =>
      simp only [keysNodup, List.map_cons, List.nodup_cons] at h
      by_cases hq : q.1 = k
      · rw [mapSet_cons, if_pos hq]
        simp only [keysNodup, List.map_cons, List.nodup_cons]
        exact ⟨hq ▸ h.1, h.2⟩
      · have h2 := ih h.2
        rw [mapSet_cons, if_neg hq]
        simp only [keysNodup, List.map_cons, List.nodup_cons]
        refine ⟨?_, h2⟩
        intro hmem
        rcases mem_keys_mapSet hmem with h3 | h3
        · exact h.1 h3
        · exact hq h3

theorem mem_keys_mapDelete {m : List (Nat × Nat)} {k x : Nat}
    (h : x ∈ (mapDelete m k).map (fun p => p.1)) :
    x ∈ m.map (fun p => p.1) := by
  rcases List.mem_map.mp h with ⟨p, hp, rfl⟩
  exact List.mem_map.mpr ⟨p, mem_mapDelete hp, rfl⟩

theorem keysNodup_mapDelete {m : List (Nat × Nat)} (k : Nat)
    (h : keysNodup m) : keysNodup (mapDelete m k) := by
  induction m with
  | nil => simp [mapDelete, keysNodup]
  | cons q t ih =>
      simp only [keysNodup, List.map_cons, List.nodup_cons] at h
      have ht := ih h.2
      by_cases hq : q.1 = k
      · simpa [mapDelete, List.filter_cons, hq] using ht
      · simp only [mapDelete] at ht ⊢
        rw [List.filter_cons, if_pos (by simp [hq])]
        simp only [keysNodup, List.map_cons, List.nodup_cons]
        refine ⟨?_, by simpa [keysNodup] using ht⟩
        intro hmem
        exact h.1 (mem_keys_mapDelete (by simpa [mapDelete] using hmem))

theorem handleOne_ping {d : RawPayload}
    (hd : d.event = InternalPusherEvents.Ping) (h : Nat) (ev : String)
    (cb : Nat) (events : List (Nat × Nat)) :
    TNSPusherConnection.handleOne d h ev cb events =
      if ev = "ping" then (mapSet events cb h, [⟨cb, CbArg.lit "ping"⟩])
      else (events, []) := by
  have h1 : ¬(InternalPusherEvents.Ping = InternalPusherEvents.Error) := by
    decide
  have h2 : ¬(InternalPusherEvents.Ping = InternalPusherEvents.Pong) := by
    decide
  by_cases hev : ev = "ping"
  · have h3 : ¬(ev = "pong") := by rw [hev]; decide
    have h4 : ¬(ev = "error") := by rw [hev]; decide
    simp [TNSPusherConnection.handleOne, hd, h1, h2, h3, h4, hev]
  · simp [TNSPusherConnection.handleOne, hd, h1, h2, hev]

theorem handleOne_error {d : RawPayload}
    (hd : d.event = InternalPusherEvents.Error) (h : Nat) (ev : String)
    (cb : Nat) (events : List (Nat × Nat)) :
    TNSPusherConnection.handleOne d h ev cb events =
      if ev = "error" then
        (mapSet events cb h, [⟨cb, CbArg.ev (deserialize d)⟩])
      else (events, []) := by
  have h1 : ¬(InternalPusherEvents.Error = InternalPusherEvents.Ping) := by
    decide
  have h2 : ¬(InternalPusherEvents.Error = InternalPusherEvents.Pong) := by
    decide
  by_cases hev : ev = "error"
  · have h3 : ¬(ev = "pong") := by rw [hev]; decide
    have h4 : ¬(ev = "ping") := by rw [hev]; decide
    simp [TNSPusherConnection.handleOne, hd, h1, h2, h3, h4, hev]
  · simp [TNSPusherConnection.handleOne, hd, h1, h2, hev]

theorem keysNodup_handleOne (d : RawPayload) (h : Nat) (ev : String) (cb : Nat)
    {events : List (Nat × Nat)} (hn : keysNodup events) :
    keysNodup (TNSPusherConnection.handleOne d h ev cb events).1 := by
  simp only [TNSPusherConnection.handleOne]
  split_ifs <;> dsimp only <;>
    repeat (first | exact hn | apply keysNodup_mapSet)

theorem keysNodup_deliverAux (d : RawPayload) :
    ∀ (subs : List (Nat × String × Nat)) (events : List (Nat × Nat)),
      keysNodup events →
      keysNodup (TNSPusherConnection.deliverAux d subs events).1 := by
  intro subs
  induction subs with
  | nil =>
      intro events hn
      simpa [TNSPusherConnection.deliverAux] using hn
  | cons sub rest ih =>
      intro events hn
      simp only [TNSPusherConnection.deliverAux]
      exact ih _ (keysNodup_handleOne d sub.1 sub.2.1 sub.2.2 hn)

theorem deliverAux_log_ping {d : RawPayload}
    (hd : d.event = InternalPusherEvents.Ping) :
    ∀ (subs : List (Nat × String × Nat)) (events : List (Nat × Nat))
      (inv : Invocation),
      inv ∈ (TNSPusherConnection.deliverAux d subs events).2 →
      inv.arg = CbArg.lit "ping" ∧ ∃ h, (h, "ping", inv.cb) ∈ subs := by
  intro subs
  induction subs with
  | nil =>
      intro events inv hmem
      simp [TNSPusherConnection.deliverAux] at hmem
  | cons sub rest ih =>
      intro events inv hmem
      simp only [TNSPusherConnection.deliverAux] at hmem
      rw [handleOne_ping hd] at hmem
      by_cases hev : sub.2.1 = "ping"
      · rw [if_pos hev] at hmem
        dsimp only at hmem
        rcases List.mem_append.mp hmem with hl | hr
        · have hinv : inv = ⟨sub.2.2, CbArg.lit "ping"⟩ := by
            simpa using hl
          refine ⟨by rw [hinv], ⟨sub.1, ?_⟩⟩
          have hsub : (sub.1, "ping", sub.2.2) = sub := by
            rw [← hev]
          rw [hinv]
          rw [hsub]
          exact List.mem_cons_self _ _
        · rcases ih _ inv hr with ⟨harg, hh, hhm⟩
          exact ⟨harg, ⟨hh, List.mem_cons_of_mem _ hhm⟩⟩
      · rw [if_neg hev] at hmem
        dsimp only at hmem
        rcases ih _ inv (by simpa using hmem) with ⟨harg, hh, hhm⟩
        exact ⟨harg, ⟨hh, List.mem_cons_of_mem _ hhm⟩⟩

theorem deliverAux_ping_fires {d : RawPayload}
    (hd : d.event = InternalPusherEvents.Ping) :
    ∀ (subs : List (Nat × String × Nat)) (events : List (Nat × Nat))
      (h cb : Nat), (h, "ping", cb) ∈ subs →
      (⟨cb, CbArg.lit "ping"⟩ : Invocation) ∈
        (TNSPusherConnection.deliverAux d subs events).2 := by
  intro subs
  induction subs with
  | nil =>
      intro events h cb hmem
      simp at hmem
  | cons sub rest ih =>
      intro events h cb hmem
      simp only [TNSPusherConnection.deliverAux]
      rw [handleOne_ping hd]
      rcases List.mem_cons.mp hmem with heq | htail
      · rw [← heq]
        dsimp only
        rw [if_pos rfl]
        dsimp only
        exact List.mem_append.mpr (Or.inl (by simp))
      · by_cases hev : sub.2.1 = "ping"
        · rw [if_pos hev]
          dsimp only
          exact List.mem_append.mpr (Or.inr (ih _ h cb htail))
        · rw [if_neg hev]
          dsimp only
          simpa using ih _ h cb htail

theorem deliverAux_log_error {d : RawPayload}
    (hd : d.event = InternalPusherEvents.Error) :
    ∀ (subs : List (Nat × String × Nat)) (events : List (Nat × Nat))
      (inv : Invocation),
      inv ∈ (TNSPusherConnection.deliverAux d subs events).2 →
      inv.arg = CbArg.ev (deserialize d) ∧
        ∃ h, (h, "error", inv.cb) ∈ subs := by
  intro subs
  induction subs with
  | nil =>
      intro events inv hmem
      simp [TNSPusherConnection.deliverAux] at hmem
  | cons sub rest ih =>
      intro events inv hmem
      simp only [TNSPusherConnection.deliverAux] at hmem
      rw [handleOne_error hd] at hmem
      by_cases hev : sub.2.1 = "error"
      · rw [if_pos hev] at hmem
        dsimp only at hmem
        rcases List.mem_append.mp hmem with hl | hr
        · have hinv : inv = ⟨sub.2.2, CbArg.ev (deserialize d)⟩ := by
            simpa using hl
          refine ⟨by rw [hinv], ⟨sub.1, ?_⟩⟩
          have hsub : (sub.1, "error", sub.2.2) = sub := by
            rw [← hev]
          rw [hinv]
          rw [hsub]
          exact List.mem_cons_self _ _
        · rcases ih _ inv hr with ⟨harg, hh, hhm⟩
          exact ⟨harg, ⟨hh, List.mem_cons_of_mem _ hhm⟩⟩
      · rw [if_neg hev] at hmem
        dsimp only at hmem
        rcases ih _ inv (by simpa using hmem) with ⟨harg, hh, hhm⟩
        exact ⟨harg, ⟨hh, List.mem_cons_of_mem _ hhm⟩⟩

theorem deliverAux_error_fires {d : RawPayload}
    (hd : d.event = InternalPusherEvents.Error) :
    ∀ (subs : List (Nat × String × Nat)) (events : List (Nat × Nat))
      (h cb : Nat), (h, "error", cb) ∈ subs →
      (⟨cb, CbArg.ev (deserialize d)⟩ : Invocation) ∈
        (TNSPusherConnection.deliverAux d subs events).2 := by
  intro subs
  induction subs with
  | nil =>
      intro events h cb hmem
      simp at hmem
  | cons sub rest ih =>
      intro events h cb hmem
      simp only [TNSPusherConnection.deliverAux]
      rw [handleOne_error hd]
      rcases List.mem_cons.mp hmem with heq | htail
      · rw [← heq]
        dsimp only
        rw [if_pos rfl]
        dsimp only
        exact List.mem_append.mpr (Or.inl (by simp))
      · by_cases hev : sub.2.1 = "error"
        · rw [if_pos hev]
          dsimp only
          exact List.mem_append.mpr (Or.inr (ih _ h cb htail))
        · rw [if_neg hev]
          dsimp only
          simpa using ih _ h cb htail

theorem clientStep_keysNodup {s : TNSPusher.State} (op : ClientOp)
    (h : keysNodup s.globalEvents) : keysNodup (clientStep s op).globalEvents := by
  cases op with
  | bind cb =>
      simp only [clientStep, TNSPusher.bind]
      exact keysNodup_mapSet _ _ h
  | unbind cb =>
      simp only [clientStep, TNSPusher.unbind]
      split
      · exact keysNodup_mapDelete _ h
      · exact h
  | deliver d => exact h

theorem clientRun_keysNodup (ops : List ClientOp) :
    ∀ s : TNSPusher.State, keysNodup s.globalEvents →
      keysNodup (clientRun s ops).globalEvents := by
  induction ops with
  | nil =>
      intro s h
      simpa [clientRun] using h
  | cons op t ih =>
      intro s h
      simp only [clientRun, List.foldl_cons]
      have := ih (clientStep s op) (clientStep_keysNodup op h)
      simpa [clientRun] using this

theorem channelStep_keysNodup {s : TNSPusherChannel.State} (op : ChannelOp)
    (h : keysNodup s.channelEvents) :
    keysNodup (channelStep s op).channelEvents := by
  cases op with
  | bind e cb =>
      simp only [channelStep, TNSPusherChannel.bind]
      exact keysNodup_mapSet _ _ h
  | unbind e cb =>
      simp only [channelStep, TNSPusherChannel.unbind]
      split
      · exact keysNodup_mapDelete _ h
      · exact h
  | deliver e d => exact h

theorem channelRun_keysNodup (ops : List ChannelOp) :
    ∀ s : TNSPusherChannel.State, keysNodup s.channelEvents →
      keysNodup (channelRun s ops).channelEvents := by
  induction ops with
  | nil =>
      intro s h
      simpa [channelRun] using h
  | cons op t ih =>
      intro s h
      simp only [channelRun, List.foldl_cons]
      have := ih (channelStep s op) (channelStep_keysNodup op h)
      simpa [channelRun] using this

theorem connStep_keysNodup {s : TNSPusherConnection.State} (op : ConnOp)
    (h : keysNodup s.events) : keysNodup (connStep s op).events := by
  cases op with
  | bind e cb => exact h
  | unbind e cb =>
      simp only [connStep, TNSPusherConnection.unbind]
      split
      · exact keysNodup_mapDelete _ h
      · exact h
  | deliver d =>
      cases d with
      | none => exact h
      | some dd =>
          simp only [connStep, TNSPusherConnection.deliver]
          exact keysNodup_deliverAux dd s.subs s.events h

theorem connRun_keysNodup (ops : List ConnOp) :
    ∀ s : TNSPusherConnection.State, keysNodup s.events →
      keysNodup (connRun s ops).events := by
  induction ops with
  | nil =>
      intro s h
      simpa [connRun] using h
  | cons op t ih =>
      intro s h
      simp only [connRun, List.foldl_cons]
      have := ih (connStep s op) (connStep_keysNodup op h)
      simpa [connRun] using this

theorem pendingSubs_length :
    ∀ (bs : List (String × Nat)) (c : Nat),
      (pendingSubs c bs).length = bs.length := by
  intro bs
  induction bs with
  | nil => intro c; rfl
  | cons b t ih => intro c; simp [pendingSubs, ih]

theorem pendingSubs_snd :
    ∀ (bs : List (String × Nat)) (c : Nat),
      (pendingSubs c bs).map (fun p => p.2) = bs := by
  intro bs
  induction bs with
  | nil => intro c; rfl
  | cons b t ih => intro c; simp [pendingSubs, ih]

theorem pendingSubs_handle_ge :
    ∀ (bs : List (String × Nat)) (c x : Nat),
      x ∈ (pendingSubs c bs).map (fun p => p.1) → c ≤ x := by
  intro bs
  induction bs with
  | nil =>
      intro c x hx
      simp [pendingSubs] at hx
  | cons b t ih =>
      intro c x hx
      simp only [pendingSubs, List.map_cons, List.mem_cons] at hx
      rcases hx with hx | hx
      · omega
      · have := ih (c + 1) x hx
        omega

theorem pendingSubs_handles_nodup :
    ∀ (bs : List (String × Nat)) (c : Nat),
      ((pendingSubs c bs).map (fun p => p.1)).Nodup := by
  intro bs
  induction bs with
  | nil => intro c; simp [pendingSubs]
  | cons b t ih =>
      intro c
      simp only [pendingSubs, List.map_cons, List.nodup_cons]
      refine ⟨?_, ih (c + 1)⟩
      intro hmem
      have := pendingSubs_handle_ge t (c + 1) c hmem
      omega

theorem connBindAll_spec :
    ∀ (bs : List (String × Nat)) (s : TNSPusherConnection.State),
      (connBindAll s bs).subs = s.subs ++ pendingSubs s.counter bs ∧
      (connBindAll s bs).counter = s.counter + bs.length ∧
      (connBindAll s bs).events = s.events := by
  intro bs
  induction bs with
  | nil => intro s; simp [connBindAll, pendingSubs]
  | cons b t ih =>
      intro s
      have h := ih (TNSPusherConnection.bind s b.1 b.2)
      simp only [connBindAll, List.foldl_cons] at h ⊢
      refine ⟨?_, ?_, ?_⟩
      · rw [h.1]
        simp [TNSPusherConnection.bind, pendingSubs]
      · rw [h.2.1]
        simp only [TNSPusherConnection.bind, List.length_cons]
        omega
      · rw [h.2.2]
        rfl

theorem firstSubPinned_step {h0 cb : Nat} {s : TNSPusher.State} (op : ClientOp)
    (h : firstSubPinned h0 cb s) : firstSubPinned h0 cb (clientStep s op) := by
  unfold firstSubPinned at h ⊢
  obtain ⟨hmem, hreg, hlt⟩ := h
  cases op with
  | bind cb' =>
      simp only [clientStep, TNSPusher.bind]
      refine ⟨List.mem_append_left _ hmem, ?_, by omega⟩
      intro p hp
      rcases mem_mapSet hp with h1 | h1
      · exact hreg p h1
      · rw [h1]
        dsimp only
        omega
  | unbind cb' =>
      simp only [clientStep, TNSPusher.unbind]
      rcases hm : mapGet s.globalEvents cb' with _ | id
      · exact ⟨hmem, hreg, hlt⟩
      · have hid : id ≠ h0 := hreg (cb', id) (mapGet_mem hm)
        dsimp only
        refine ⟨?_, ?_, hlt⟩
        · refine List.mem_filter.mpr ⟨hmem, ?_⟩
          simpa using Ne.symm hid
        · intro p hp
          exact hreg p (mem_mapDelete hp)
  | deliver d => exact ⟨hmem, hreg, hlt⟩

theorem firstSubPinned_run (ops : List ClientOp) :
    ∀ {s : TNSPusher.State} {h0 cb : Nat}, firstSubPinned h0 cb s →
      firstSubPinned h0 cb (clientRun s ops) := by
  induction ops with
  | nil =>
      intro s h0 cb h
      simpa [clientRun] using h
  | cons op t ih =>
      intro s h0 cb h
      simp only [clientRun, List.foldl_cons]
      have := ih (firstSubPinned_step op h)
      simpa [clientRun] using this

/-- C4: for every callback with no entry in the relevant registry, unbind is a
no-op in every scope: the state (subscriptions, registry, counter) is left
unchanged, so no transport unbind call is issued and nothing is raised
(the embedding is total); double-unbind is therefore benign. -/
theorem claim_C4_unbind_unknown_noop
    (cs : TNSPusher.State) (hs : TNSPusherChannel.State)
    (ks : TNSPusherConnection.State) (e e' : String) (cb : Nat)
    (h1 : mapGet cs.globalEvents cb = none)
    (h2 : mapGet hs.channelEvents cb = none)
    (h3 : mapGet ks.events cb = none) :
    TNSPusher.unbind cs cb = cs ∧
    TNSPusherChannel.unbind hs e cb = hs ∧
    TNSPusherConnection.unbind ks e' cb = ks := by
  refine ⟨?_, ?_, ?_⟩
  · simp [TNSPusher.unbind, h1]
  · simp [TNSPusherChannel.unbind, h2]
  · simp [TNSPusherConnection.unbind, h3]

/-- Witness for C4 at concrete never-bound callback 3 in all three scopes. -/
theorem claim_C4_witness :
    mapGet TNSPusher.init.globalEvents 3 = none ∧
    mapGet TNSPusherChannel.init.channelEvents 3 = none ∧
    mapGet TNSPusherConnection.init.events 3 = none ∧
    (TNSPusher.unbind TNSPusher.init 3 = TNSPusher.init ∧
     TNSPusherChannel.unbind TNSPusherChannel.init "price-update" 3 =
       TNSPusherChannel.init ∧
     TNSPusherConnection.unbind TNSPusherConnection.init "ping" 3 =
       TNSPusherConnection.init) :=
  ⟨by decide, by decide, by decide,
    claim_C4_unbind_unknown_noop TNSPusher.init TNSPusherChannel.init
      TNSPusherConnection.init "price-update" "ping" 3
      (by decide) (by decide) (by decide)⟩

/-- C8: every delegate notification received when the weak owner reference
resolves to nothing is silently dropped: dispatch returns no owner state,
writes nothing, and (being a total function) raises nothing. -/
theorem claim_C8_dropped_owner_ignored (n : PusherDelegateImpl.Notification) :
    PusherDelegateImpl.dispatch none n = none := by
  cases n <;> rfl

/-- C5: the delegate maps the new native state by the fixed table (the four
named cases, and every other value to DISCONNECTED) and writes exactly the
translated value into the owning client connection facade; in particular
(old Connecting, new Connected) leaves the facade state CONNECTED. -/
theorem claim_C5_state_mapping (st : ConnectionState) (o : ClientFacade)
    (old new_ : ConnectionState)
    (h : st ≠ ConnectionState.connected ∧ st ≠ ConnectionState.connecting ∧
      st ≠ ConnectionState.disconnecting ∧ st ≠ ConnectionState.reconnecting) :
    PusherDelegateImpl._getState ConnectionState.connected =
      ConnectionStatus.CONNECTED ∧
    PusherDelegateImpl._getState ConnectionState.connecting =
      ConnectionStatus.CONNECTING ∧
    PusherDelegateImpl._getState ConnectionState.disconnecting =
      ConnectionStatus.DISCONNECTING ∧
    PusherDelegateImpl._getState ConnectionState.reconnecting =
      ConnectionStatus.RECONNECTING ∧
    PusherDelegateImpl._getState st = ConnectionStatus.DISCONNECTED ∧
    PusherDelegateImpl.changedConnectionStateFromTo (some o) old new_ =
      some ⟨some ⟨some (PusherDelegateImpl._getState new_)⟩⟩ ∧
    PusherDelegateImpl.changedConnectionStateFromTo (some o)
        ConnectionState.connecting ConnectionState.connected =
      some ⟨some ⟨some ConnectionStatus.CONNECTED⟩⟩ := by
  obtain ⟨hc1, hc2, hc3, hc4⟩ := h
  obtain ⟨oc⟩ := o
  refine ⟨rfl, rfl, rfl, rfl, ?_, ?_, ?_⟩
  · cases st with
    | connected => exact absurd rfl hc1
    | connecting => exact absurd rfl hc2
    | disconnecting => exact absurd rfl hc3
    | reconnecting => exact absurd rfl hc4
    | disconnected => rfl
  · cases oc with
    | none => rfl
    | some c => cases c; rfl
  · cases oc with
    | none => rfl
    | some c => cases c; rfl

/-- Witness for C5 at the other-value disconnected, a fresh facade, and the
(Connecting, Connected) transition. -/
theorem claim_C5_witness :
    (ConnectionState.disconnected ≠ ConnectionState.connected ∧
     ConnectionState.disconnected ≠ ConnectionState.connecting ∧
     ConnectionState.disconnected ≠ ConnectionState.disconnecting ∧
     ConnectionState.disconnected ≠ ConnectionState.reconnecting) ∧
    (PusherDelegateImpl._getState ConnectionState.connected =
       ConnectionStatus.CONNECTED ∧
     PusherDelegateImpl._getState ConnectionState.connecting =
       ConnectionStatus.CONNECTING ∧
     PusherDelegateImpl._getState ConnectionState.disconnecting =
       ConnectionStatus.DISCONNECTING ∧
     PusherDelegateImpl._getState ConnectionState.reconnecting =
       ConnectionStatus.RECONNECTING ∧
     PusherDelegateImpl._getState ConnectionState.disconnected =
       ConnectionStatus.DISCONNECTED ∧
     PusherDelegateImpl.changedConnectionStateFromTo (some ⟨none⟩)
         ConnectionState.connecting ConnectionState.connected =
       some ⟨some ⟨some
         (PusherDelegateImpl._getState ConnectionState.connected)⟩⟩ ∧
     PusherDelegateImpl.changedConnectionStateFromTo (some ⟨none⟩)
         ConnectionState.connecting ConnectionState.connected =
       some ⟨some ⟨some ConnectionStatus.CONNECTED⟩⟩) :=
  ⟨by decide,
    claim_C5_state_mapping ConnectionState.disconnected ⟨none⟩
      ConnectionState.connecting ConnectionState.connected (by decide)⟩

/-- C2 as the code behaves (the claim itself fails on the code): after
Channel.bind of a callback for price-update, a transport delivery of a
price-update payload runs the translation closure (the console log records
one called entry, so the subscription and handle were installed, and the
handle was recorded in the registry), but the callback is invoked zero
times, not once: the invocation log is empty, because the line applying the
callback to the deserialized payload is commented out in the source. -/
theorem claim_C2_channel_callback_never_invoked :
    mapGet (TNSPusherChannel.bind TNSPusherChannel.init
        "price-update" 0).channelEvents 0 = some 0 ∧
    TNSPusherChannel.deliver
        (TNSPusherChannel.bind TNSPusherChannel.init "price-update" 0)
        "price-update" ⟨"price-update", "payload"⟩ = (["called"], []) := by
  decide

/-- C10: when the options object carries both a truthy cluster and a truthy
host, the endpoint is built from host: the cluster-derived value is computed
first and then overwritten before the transport options are constructed. -/
theorem claim_C10_host_overrides_cluster (o : Options) (c h : String)
    (hc : o.cluster = some c) (hc0 : c ≠ "")
    (hh : o.host = some h) (hh0 : h ≠ "") :
    computeHost o = some (OCPusherHost.fromHost h) ∧
    (buildClientOptions o).ocHost = some (OCPusherHost.fromHost h) ∧
    computeHost { o with host := none } = some (OCPusherHost.fromCluster c) := by
  have ht2 : truthyStr (some h) = true := by simp [truthyStr, hh0]
  have htc2 : truthyStr (some c) = true := by simp [truthyStr, hc0]
  refine ⟨?_, ?_, ?_⟩
  · simp [computeHost, hh, ht2]
  · simp [buildClientOptions, computeHost, hh, ht2]
  · simp [computeHost, truthyStr, hc, hc0]

/-- Witness for C10 at a concrete options object carrying both fields. -/
theorem claim_C10_witness :
    (Options.mk (some "mt1") (some "example.org") (some 443) (some true)
        (some true) (some 120)).cluster = some "mt1" ∧
    ("mt1" : String) ≠ "" ∧
    (Options.mk (some "mt1") (some "example.org") (some 443) (some true)
        (some true) (some 120)).host = some "example.org" ∧
    ("example.org" : String) ≠ "" ∧
    (computeHost (Options.mk (some "mt1") (some "example.org") (some 443)
        (some true) (some true) (some 120)) =
      some (OCPusherHost.fromHost "example.org") ∧
     (buildClientOptions (Options.mk (some "mt1") (some "example.org")
        (some 443) (some true) (some true) (some 120))).ocHost =
      some (OCPusherHost.fromHost "example.org") ∧
     computeHost { Options.mk (some "mt1") (some "example.org") (some 443)
        (some true) (some true) (some 120) with host := none } =
      some (OCPusherHost.fromCluster "mt1")) :=
  ⟨rfl, by decide, rfl, by decide,
    claim_C10_host_overrides_cluster _ "mt1" "example.org" rfl (by decide)
      rfl (by decide)⟩

/-- C6: every registry holds at most one handle per callback reference at all
times (registries start empty and every reachable trace of operations keeps
their keys duplicate-free in all three scopes), and binding the same
callback reference twice in the scopes whose bind writes the registry
(client-global and per-channel) overwrites the recorded handle in place
rather than adding a second entry: the lookup yields the newer handle and
the registry length is unchanged. -/
theorem claim_C6_at_most_one_handle_per_callback :
    (∀ ops : List ClientOp,
      keysNodup (clientRun TNSPusher.init ops).globalEvents) ∧
    (∀ ops : List ChannelOp,
      keysNodup (channelRun TNSPusherChannel.init ops).channelEvents) ∧
    (∀ ops : List ConnOp,
      keysNodup (connRun TNSPusherConnection.init ops).events) ∧
    (∀ (s : TNSPusher.State) (cb : Nat),
      mapGet (TNSPusher.bind (TNSPusher.bind s cb) cb).globalEvents cb =
        some (TNSPusher.bind s cb).counter ∧
      (TNSPusher.bind (TNSPusher.bind s cb) cb).globalEvents.length =
        (TNSPusher.bind s cb).globalEvents.length) ∧
    (∀ (s : TNSPusherChannel.State) (e1 e2 : String) (cb : Nat),
      mapGet (TNSPusherChannel.bind (TNSPusherChannel.bind s e1 cb) e2
          cb).channelEvents cb =
        some (TNSPusherChannel.bind s e1 cb).counter ∧
      (TNSPusherChannel.bind (TNSPusherChannel.bind s e1 cb) e2
          cb).channelEvents.length =
        (TNSPusherChannel.bind s e1 cb).channelEvents.length) := by
  refine ⟨?_, ?_, ?_, ?_, ?_⟩
  · intro ops
    exact clientRun_keysNodup ops _ (by simp [TNSPusher.init, keysNodup])
  · intro ops
    exact channelRun_keysNodup ops _
      (by simp [TNSPusherChannel.init, keysNodup])
  · intro ops
    exact connRun_keysNodup ops _
      (by simp [TNSPusherConnection.init, keysNodup])
  · intro s cb
    constructor
    · simp only [TNSPusher.bind]
      exact mapGet_mapSet_self _ _ _
    · simp only [TNSPusher.bind]
      exact mapSet_mapSet_length _ _ _ _
  · intro s e1 e2 cb
    constructor
    · simp only [TNSPusherChannel.bind]
      exact mapGet_mapSet_self _ _ _
    · simp only [TNSPusherChannel.bind]
      exact mapSet_mapSet_length _ _ _ _

/-- C7: a sequence of Connection.bind calls installs one transport
subscription per call: the subscription list has one entry per requested
(logical event, callback) pair, in order, each entry carrying its own
demultiplexing data, and all transport handles are pairwise distinct. -/
theorem claim_C7_one_subscription_per_bind (bs : List (String × Nat)) :
    (connBindAll TNSPusherConnection.init bs).subs.length = bs.length ∧
    ((connBindAll TNSPusherConnection.init bs).subs.map
      (fun p => p.1)).Nodup ∧
    (connBindAll TNSPusherConnection.init bs).subs.map (fun p => p.2) = bs := by
  have h := connBindAll_spec bs TNSPusherConnection.init
  refine ⟨?_, ?_, ?_⟩
  · rw [h.1]
    simp [TNSPusherConnection.init, pendingSubs_length]
  · rw [h.1]
    simpa [TNSPusherConnection.init] using pendingSubs_handles_nodup bs 0
  · rw [h.1]
    simpa [TNSPusherConnection.init] using pendingSubs_snd bs 0

/-- C3: on a payload whose discriminator is the internal ping value, every
invocation produced by the connection demultiplexer has the fixed literal
ping as argument and stems from a subscription bound for the logical event
ping; every ping-bound subscription does fire; a callback with no ping-bound
subscription (for example one bound only for pong) is not invoked.
Symmetrically, on the internal error discriminator every invocation carries
the full deserialized payload and stems from an error-bound subscription,
and every error-bound subscription fires. -/
theorem claim_C3_internal_event_demux (s : TNSPusherConnection.State)
    (dping derr : RawPayload)
    (hping : dping.event = InternalPusherEvents.Ping)
    (herr : derr.event = InternalPusherEvents.Error) :
    (∀ inv ∈ (TNSPusherConnection.deliver s (some dping)).2,
      inv.arg = CbArg.lit "ping" ∧ ∃ h, (h, "ping", inv.cb) ∈ s.subs) ∧
    (∀ h cb, (h, "ping", cb) ∈ s.subs →
      (⟨cb, CbArg.lit "ping"⟩ : Invocation) ∈
        (TNSPusherConnection.deliver s (some dping)).2) ∧
    (∀ cb, (∀ h, (h, "ping", cb) ∉ s.subs) →
      ∀ inv ∈ (TNSPusherConnection.deliver s (some dping)).2, inv.cb ≠ cb) ∧
    (∀ inv ∈ (TNSPusherConnection.deliver s (some derr)).2,
      inv.arg = CbArg.ev (deserialize derr) ∧
        ∃ h, (h, "error", inv.cb) ∈ s.subs) ∧
    (∀ h cb, (h, "error", cb) ∈ s.subs →
      (⟨cb, CbArg.ev (deserialize derr)⟩ : Invocation) ∈
        (TNSPusherConnection.deliver s (some derr)).2) := by
  refine ⟨?_, ?_, ?_, ?_, ?_⟩
  · intro inv hmem
    exact deliverAux_log_ping hping s.subs s.events inv
      (by simpa [TNSPusherConnection.deliver] using hmem)
  · intro h cb hmem
    simpa [TNSPusherConnection.deliver] using
      deliverAux_ping_fires hping s.subs s.events h cb hmem
  · intro cb hno inv hmem hcb
    rcases deliverAux_log_ping hping s.subs s.events inv
        (by simpa [TNSPusherConnection.deliver] using hmem) with ⟨_, hh, hhm⟩
    exact hno hh (by rwa [hcb] at hhm)
  · intro inv hmem
    exact deliverAux_log_error herr s.subs s.events inv
      (by simpa [TNSPusherConnection.deliver] using hmem)
  · intro h cb hmem
    simpa [TNSPusherConnection.deliver] using
      deliverAux_error_fires herr s.subs s.events h cb hmem

/-- Witness for C3 on a connection with a ping binding (callback 1) and a
pong binding (callback 2), fed a concrete ping payload and a concrete error
payload; also evaluates the concrete invocation log. -/
theorem claim_C3_witness :
    (RawPayload.mk InternalPusherEvents.Ping "p").event =
      InternalPusherEvents.Ping ∧
    (RawPayload.mk InternalPusherEvents.Error "e").event =
      InternalPusherEvents.Error ∧
    (TNSPusherConnection.deliver
        ⟨2, [(0, "ping", 1), (1, "pong", 2)], []⟩
        (some ⟨InternalPusherEvents.Ping, "p"⟩)).2 =
      [⟨1, CbArg.lit "ping"⟩] ∧
    ((∀ inv ∈ (TNSPusherConnection.deliver
          ⟨2, [(0, "ping", 1), (1, "pong", 2)], []⟩
          (some ⟨InternalPusherEvents.Ping, "p"⟩)).2,
        inv.arg = CbArg.lit "ping" ∧
          ∃ h, (h, "ping", inv.cb) ∈
            (⟨2, [(0, "ping", 1), (1, "pong", 2)], []⟩ :
              TNSPusherConnection.State).subs) ∧
     (∀ h cb, (h, "ping", cb) ∈
          (⟨2, [(0, "ping", 1), (1, "pong", 2)], []⟩ :
            TNSPusherConnection.State).subs →
        (⟨cb, CbArg.lit "ping"⟩ : Invocation) ∈
          (TNSPusherConnection.deliver
            ⟨2, [(0, "ping", 1), (1, "pong", 2)], []⟩
            (some ⟨InternalPusherEvents.Ping, "p"⟩)).2) ∧
     (∀ cb, (∀ h, (h, "ping", cb) ∉
          (⟨2, [(0, "ping", 1), (1, "pong", 2)], []⟩ :
            TNSPusherConnection.State).subs) →
        ∀ inv ∈ (TNSPusherConnection.deliver
            ⟨2, [(0, "ping", 1), (1, "pong", 2)], []⟩
            (some ⟨InternalPusherEvents.Ping, "p"⟩)).2, inv.cb ≠ cb) ∧
     (∀ inv ∈ (TNSPusherConnection.deliver
          ⟨2, [(0, "ping", 1), (1, "pong", 2)], []⟩
          (some ⟨InternalPusherEvents.Error, "e"⟩)).2,
        inv.arg = CbArg.ev (deserialize ⟨InternalPusherEvents.Error, "e"⟩) ∧
          ∃ h, (h, "error", inv.cb) ∈
            (⟨2, [(0, "ping", 1), (1, "pong", 2)], []⟩ :
              TNSPusherConnection.State).subs) ∧
     (∀ h cb, (h, "error", cb) ∈
          (⟨2, [(0, "ping", 1), (1, "pong", 2)], []⟩ :
            TNSPusherConnection.State).subs →
        (⟨cb, CbArg.ev (deserialize ⟨InternalPusherEvents.Error, "e"⟩)⟩ :
            Invocation) ∈
          (TNSPusherConnection.deliver
            ⟨2, [(0, "ping", 1), (1, "pong", 2)], []⟩
            (some ⟨InternalPusherEvents.Error, "e"⟩)).2)) :=
  ⟨rfl, rfl, by decide,
    claim_C3_internal_event_demux
      ⟨2, [(0, "ping", 1), (1, "pong", 2)], []⟩
      ⟨InternalPusherEvents.Ping, "p"⟩
      ⟨InternalPusherEvents.Error, "e"⟩ rfl rfl⟩

/-- C1 counterexample, per-connection scope: bind of callback 0 for the
logical event ping followed immediately by unbind leaves the registry with
no entry for the callback (the registry was never written at bind time, so
the unbind is a complete no-op and the transport subscription is never
unbound), and a subsequent ping payload still invokes the callback,
contradicting the claim that no subsequent payload delivery invokes it. -/
theorem claim_C1_counterexample :
    mapGet (TNSPusherConnection.unbind
      (TNSPusherConnection.bind TNSPusherConnection.init "ping" 0)
      "ping" 0).events 0 = none ∧
    TNSPusherConnection.unbind
      (TNSPusherConnection.bind TNSPusherConnection.init "ping" 0) "ping" 0 =
      TNSPusherConnection.bind TNSPusherConnection.init "ping" 0 ∧
    (TNSPusherConnection.deliver
      (TNSPusherConnection.unbind
        (TNSPusherConnection.bind TNSPusherConnection.init "ping" 0)
        "ping" 0)
      (some ⟨InternalPusherEvents.Ping, "x"⟩)).2 =
      [⟨0, CbArg.lit "ping"⟩] := by
  decide

/-- C1 amended: in the client-global and per-channel scopes, bind of a
callback followed immediately by unbind leaves the registry with no entry
for it and removes the transport subscription the bind created, so no
subsequent payload delivery invokes the callback (given the callback had no
other live subscription, and with handles below the counter as in every
reachable state). In the per-connection scope the registry entry is written
only upon a matching delivery, so the immediate unbind is a complete no-op:
the registry has no entry for the callback, the transport subscription
remains live, and a subsequent payload with the matching ping discriminator
still invokes the callback. -/
theorem claim_C1_amended_bind_unbind (cs : TNSPusher.State) (cb : Nat)
    (hfresh : ∀ h, (h, cb) ∉ cs.subs)
    (hcs : ∀ p ∈ cs.subs, p.1 < cs.counter)
    (hs : TNSPusherChannel.State) (e : String) (cbh : Nat)
    (hhs : ∀ p ∈ hs.subs, p.1 < hs.counter)
    (ks : TNSPusherConnection.State) (ec : String) (cbk : Nat)
    (hks : mapGet ks.events cbk = none) :
    (mapGet (TNSPusher.unbind (TNSPusher.bind cs cb) cb).globalEvents cb =
        none ∧
      (TNSPusher.unbind (TNSPusher.bind cs cb) cb).subs = cs.subs ∧
      (∀ (d : RawPayload) (inv : Invocation),
        inv ∈ TNSPusher.deliver (TNSPusher.unbind (TNSPusher.bind cs cb) cb)
          d → inv.cb ≠ cb)) ∧
    (mapGet (TNSPusherChannel.unbind (TNSPusherChannel.bind hs e cbh) e
          cbh).channelEvents cbh = none ∧
      (TNSPusherChannel.unbind (TNSPusherChannel.bind hs e cbh) e cbh).subs =
        hs.subs ∧
      (∀ (e' : String) (d : RawPayload),
        (TNSPusherChannel.deliver
          (TNSPusherChannel.unbind (TNSPusherChannel.bind hs e cbh) e cbh)
          e' d).2 = [])) ∧
    (TNSPusherConnection.unbind (TNSPusherConnection.bind ks ec cbk) ec cbk =
        TNSPusherConnection.bind ks ec cbk ∧
      mapGet (TNSPusherConnection.bind ks ec cbk).events cbk = none ∧
      (ks.counter, ec, cbk) ∈ (TNSPusherConnection.bind ks ec cbk).subs ∧
      (ec = "ping" → ∀ d : RawPayload,
        d.event = InternalPusherEvents.Ping →
        (⟨cbk, CbArg.lit "ping"⟩ : Invocation) ∈
          (TNSPusherConnection.deliver (TNSPusherConnection.bind ks ec cbk)
            (some d)).2)) := by
  have hgetc : mapGet (TNSPusher.bind cs cb).globalEvents cb =
      some cs.counter := by
    simp only [TNSPusher.bind]
    exact mapGet_mapSet_self _ _ _
  have hsubsc : (TNSPusher.unbind (TNSPusher.bind cs cb) cb).subs = cs.subs := by
    simp only [TNSPusher.unbind, hgetc]
    simp only [TNSPusher.bind]
    rw [List.filter_append]
    have h1 : cs.subs.filter (fun p => p.1 ≠ cs.counter) = cs.subs := by
      apply List.filter_eq_self.mpr
      intro a ha
      have := hcs a ha
      simp only [ne_eq, decide_eq_true_eq]
      omega
    have h2 : ([(cs.counter, cb)] : List (Nat × Nat)).filter
        (fun p => p.1 ≠ cs.counter) = [] := by
      simp
    rw [h1, h2, List.append_nil]
  have hgeth : mapGet (TNSPusherChannel.bind hs e cbh).channelEvents cbh =
      some hs.counter := by
    simp only [TNSPusherChannel.bind]
    exact mapGet_mapSet_self _ _ _
  refine ⟨⟨?_, hsubsc, ?_⟩, ⟨?_, ?_, fun e' d => rfl⟩, ?_, hks, ?_, ?_⟩
  · simp only [TNSPusher.unbind, hgetc]
    exact mapGet_mapDelete_self _ _
  · intro d inv hmem heq
    rw [TNSPusher.deliver, hsubsc] at hmem
    rcases List.mem_map.mp hmem with ⟨p, hp, hinv⟩
    rw [← hinv] at heq
    dsimp only at heq
    apply hfresh p.1
    rw [← heq]
    exact hp
  · simp only [TNSPusherChannel.unbind, hgeth]
    exact mapGet_mapDelete_self _ _
  · simp only [TNSPusherChannel.unbind, hgeth]
    simp only [TNSPusherChannel.bind]
    rw [List.filter_append]
    have h1 : hs.subs.filter (fun p => p.1 ≠ hs.counter) = hs.subs := by
      apply List.filter_eq_self.mpr
      intro a ha
      have := hhs a ha
      simp only [ne_eq, decide_eq_true_eq]
      omega
    have h2 : ([(hs.counter, e)] : List (Nat × String)).filter
        (fun p => p.1 ≠ hs.counter) = [] := by
      simp
    rw [h1, h2, List.append_nil]
  · simp only [TNSPusherConnection.unbind]
    have hkget : mapGet (TNSPusherConnection.bind ks ec cbk).events cbk =
        none := hks
    simp only [hkget]
  · simp [TNSPusherConnection.bind]
  · intro he d hd
    subst he
    have hmem : (ks.counter, "ping", cbk) ∈
        (TNSPusherConnection.bind ks "ping" cbk).subs := by
      simp [TNSPusherConnection.bind]
    simpa [TNSPusherConnection.deliver] using
      deliverAux_ping_fires hd
        (TNSPusherConnection.bind ks "ping" cbk).subs
        (TNSPusherConnection.bind ks "ping" cbk).events
        ks.counter cbk hmem

/-- Witness for the amended C1 at fresh states and concrete callbacks. -/
theorem claim_C1_witness :
    (∀ h : Nat, (h, 0) ∉ TNSPusher.init.subs) ∧
    (∀ p ∈ TNSPusher.init.subs, p.1 < TNSPusher.init.counter) ∧
    (∀ p ∈ TNSPusherChannel.init.subs, p.1 < TNSPusherChannel.init.counter) ∧
    mapGet TNSPusherConnection.init.events 0 = none ∧
    ((mapGet (TNSPusher.unbind (TNSPusher.bind TNSPusher.init 0)
          0).globalEvents 0 = none ∧
       (TNSPusher.unbind (TNSPusher.bind TNSPusher.init 0) 0).subs =
         TNSPusher.init.subs ∧
       (∀ (d : RawPayload) (inv : Invocation),
         inv ∈ TNSPusher.deliver
           (TNSPusher.unbind (TNSPusher.bind TNSPusher.init 0) 0) d →
         inv.cb ≠ 0)) ∧
     (mapGet (TNSPusherChannel.unbind
          (TNSPusherChannel.bind TNSPusherChannel.init "price-update" 0)
          "price-update" 0).channelEvents 0 = none ∧
       (TNSPusherChannel.unbind
          (TNSPusherChannel.bind TNSPusherChannel.init "price-update" 0)
          "price-update" 0).subs = TNSPusherChannel.init.subs ∧
       (∀ (e' : String) (d : RawPayload),
         (TNSPusherChannel.deliver
           (TNSPusherChannel.unbind
             (TNSPusherChannel.bind TNSPusherChannel.init "price-update" 0)
             "price-update" 0) e' d).2 = [])) ∧
     (TNSPusherConnection.unbind
          (TNSPusherConnection.bind TNSPusherConnection.init "ping" 0)
          "ping" 0 =
        TNSPusherConnection.bind TNSPusherConnection.init "ping" 0 ∧
       mapGet (TNSPusherConnection.bind TNSPusherConnection.init "ping"
          0).events 0 = none ∧
       (TNSPusherConnection.init.counter, "ping", 0) ∈
         (TNSPusherConnection.bind TNSPusherConnection.init "ping" 0).subs ∧
       (("ping" : String) = "ping" → ∀ d : RawPayload,
         d.event = InternalPusherEvents.Ping →
         (⟨0, CbArg.lit "ping"⟩ : Invocation) ∈
           (TNSPusherConnection.deliver
             (TNSPusherConnection.bind TNSPusherConnection.init "ping" 0)
             (some d)).2))) :=
  ⟨by simp [TNSPusher.init], by simp [TNSPusher.init],
    by simp [TNSPusherChannel.init], by decide,
    claim_C1_amended_bind_unbind TNSPusher.init 0
      (by simp [TNSPusher.init]) (by simp [TNSPusher.init])
      TNSPusherChannel.init "price-update" 0
      (by simp [TNSPusherChannel.init])
      TNSPusherConnection.init "ping" 0 (by decide)⟩

/-- C9: rebinding the same callback reference through Client.bind creates a
second transport subscription and overwrites the recorded handle, so a
following Client.unbind removes only the second subscription; the first
transport subscription stays live and no continuation of the trace through
this interface can ever remove it (unbind only ever uses the handle stored
in the registry, which can never again be the first handle). -/
theorem claim_C9_rebind_leaks_first_subscription (s : TNSPusher.State)
    (cb : Nat)
    (hsub : ∀ p ∈ s.subs, p.1 < s.counter)
    (hreg : ∀ p ∈ s.globalEvents, p.2 < s.counter) :
    (TNSPusher.bind (TNSPusher.bind s cb) cb).subs =
      s.subs ++ [(s.counter, cb), (s.counter + 1, cb)] ∧
    mapGet (TNSPusher.bind (TNSPusher.bind s cb) cb).globalEvents cb =
      some (s.counter + 1) ∧
    (TNSPusher.unbind (TNSPusher.bind (TNSPusher.bind s cb) cb) cb).subs =
      s.subs ++ [(s.counter, cb)] ∧
    mapGet (TNSPusher.unbind (TNSPusher.bind (TNSPusher.bind s cb) cb)
      cb).globalEvents cb = none ∧
    (∀ ops : List ClientOp, (s.counter, cb) ∈
      (clientRun (TNSPusher.unbind (TNSPusher.bind (TNSPusher.bind s cb) cb)
        cb) ops).subs) := by
  have ha : (TNSPusher.bind (TNSPusher.bind s cb) cb).subs =
      s.subs ++ [(s.counter, cb), (s.counter + 1, cb)] := by
    simp [TNSPusher.bind]
  have hb : mapGet (TNSPusher.bind (TNSPusher.bind s cb) cb).globalEvents cb =
      some (s.counter + 1) := by
    simp only [TNSPusher.bind]
    exact mapGet_mapSet_self _ _ _
  have hc : (TNSPusher.unbind (TNSPusher.bind (TNSPusher.bind s cb) cb)
      cb).subs = s.subs ++ [(s.counter, cb)] := by
    simp only [TNSPusher.unbind, hb]
    rw [ha, List.filter_append]
    have h1 : s.subs.filter (fun p => p.1 ≠ s.counter + 1) = s.subs := by
      apply List.filter_eq_self.mpr
      intro a ha2
      have := hsub a ha2
      simp only [ne_eq, decide_eq_true_eq]
      omega
    have h2 : ([(s.counter, cb), (s.counter + 1, cb)] : List (Nat × Nat)).filter
        (fun p => p.1 ≠ s.counter + 1) = [(s.counter, cb)] := by
      simp
    rw [h1, h2]
  have hd2 : mapGet (TNSPusher.unbind (TNSPusher.bind (TNSPusher.bind s cb)
      cb) cb).globalEvents cb = none := by
    simp only [TNSPusher.unbind, hb]
    exact mapGet_mapDelete_self _ _
  refine ⟨ha, hb, hc, hd2, ?_⟩
  intro ops
  have hpin : firstSubPinned s.counter cb
      (TNSPusher.unbind (TNSPusher.bind (TNSPusher.bind s cb) cb) cb) := by
    unfold firstSubPinned
    refine ⟨?_, ?_, ?_⟩
    · rw [hc]
      exact List.mem_append_right _ (by simp)
    · intro p hp
      have hp2 : p ∈ mapDelete
          (TNSPusher.bind (TNSPusher.bind s cb) cb).globalEvents cb := by
        simpa only [TNSPusher.unbind, hb] using hp
      have hp1 : p.1 ≠ cb := by
        have := List.mem_filter.mp hp2
        simpa using this.2
      have hp4 : p ∈ mapSet (mapSet s.globalEvents cb s.counter) cb
          (s.counter + 1) := by
        simpa only [TNSPusher.bind] using mem_mapDelete hp2
      rcases mem_mapSet hp4 with hp5 | hp5
      · rcases mem_mapSet hp5 with hp6 | hp6
        · have := hreg p hp6
          omega
        · rw [hp6] at hp1
          exact absurd rfl hp1
      · rw [hp5] at hp1
        exact absurd rfl hp1
    · simp only [TNSPusher.unbind, hb]
      simp only [TNSPusher.bind]
      omega
  exact (firstSubPinned_run ops hpin).1

/-- Witness for C9 at the fresh client state and callback 7. -/
theorem claim_C9_witness :
    (∀ p ∈ TNSPusher.init.subs, p.1 < TNSPusher.init.counter) ∧
    (∀ p ∈ TNSPusher.init.globalEvents, p.2 < TNSPusher.init.counter) ∧
    ((TNSPusher.bind (TNSPusher.bind TNSPusher.init 7) 7).subs =
       TNSPusher.init.subs ++
         [(TNSPusher.init.counter, 7), (TNSPusher.init.counter + 1, 7)] ∧
     mapGet (TNSPusher.bind (TNSPusher.bind TNSPusher.init 7)
       7).globalEvents 7 = some (TNSPusher.init.counter + 1) ∧
     (TNSPusher.unbind (TNSPusher.bind (TNSPusher.bind TNSPusher.init 7) 7)
       7).subs = TNSPusher.init.subs ++ [(TNSPusher.init.counter, 7)] ∧
     mapGet (TNSPusher.unbind (TNSPusher.bind (TNSPusher.bind TNSPusher.init
       7) 7) 7).globalEvents 7 = none ∧
     (∀ ops : List ClientOp, (TNSPusher.init.counter, 7) ∈
       (clientRun (TNSPusher.unbind (TNSPusher.bind (TNSPusher.bind
         TNSPusher.init 7) 7) 7) ops).subs)) :=
  ⟨by simp [TNSPusher.init], by simp [TNSPusher.init],
    claim_C9_rebind_leaks_first_subscription TNSPusher.init 7
      (by simp [TNSPusher.init]) (by simp [TNSPusher.init])⟩
